import Mathlib

/-!
# Senpai: a shallow embedding of the cgroup memory-limit controller

This file embeds the program `senpai.py` (a closed-loop controller that
resizes a cgroup's `memory.high` limit from psi pressure data) and proves
properties of the embedded definitions.

Modelling conventions:
* Python integers are `ℤ` (arbitrary precision, as in CPython).
* Python floats are modelled as exact rationals `ℚ`; `int(x)` on a float
  truncates toward zero, modelled by `pyInt`.
* Reads of the cgroupfs pseudo-files during one operation are modelled by an
  explicit `Env` snapshot; writes are reflected in the returned state (the
  controller compares later reads against the value it last wrote).
* Python's `limit &= ~4095` on arbitrary-precision two's-complement integers
  is `Int.land limit (Int.lnot 4095)`.
-/

namespace Senpai

/-- The configuration record built by the argument parser: `cgpath` is I/O
identity only and is dropped; the remaining eight fields are the numeric
options (`--min-size`, `--max-size`, `--interval`, `--pressure`,
`--max-probe`, `--max-backoff`, `--coeff-probe`, `--coeff-backoff`). -/
structure Conf where
  min_size : ℤ
  max_size : ℤ
  interval : ℤ
  pressure : ℤ
  max_probe : ℚ
  max_backoff : ℚ
  coeff_probe : ℤ
  coeff_backoff : ℤ
deriving DecidableEq, Repr

/-- One snapshot of the cgroupfs files consumed during an operation:
`memHigh` is the parsed content of `memory.high` (`none` models the literal
string `"max\n"`), `memCurrent` the content of `memory.current`, and
`pressureTotal` the `total=` field of the `some` line of `memory.pressure`. -/
structure Env where
  memHigh : Option ℤ
  memCurrent : ℤ
  pressureTotal : ℤ
deriving DecidableEq, Repr

/-- `Cgroup.read_limit`: parse `memory.high`, mapping the sentinel `"max\n"`
to `(1 <<< 64) - 1`. -/
def read_limit (env : Env) : ℤ :=
  match env.memHigh with
  | none => 2 ^ 64 - 1
  | some x => x

/-- `Cgroup.read_current`: parse `memory.current`. -/
def read_current (env : Env) : ℤ :=
  env.memCurrent

/-- The clamp-and-align tail of `Cgroup.import_limit`:
`limit = max(self.limit_min, min(self.limit_max, limit)); limit &= ~4095`. -/
def sanitize (conf : Conf) (limit : ℤ) : ℤ :=
  let limit := max conf.min_size (min conf.max_size limit)
  Int.land limit (Int.lnot 4095)

/-- `Cgroup.import_limit`: `stored` is the handle's `self.limit` (`none`
before the first store, as set in `Cgroup.__init__`), `cand` the `limit`
argument (`None` on the initial `set_limit(None)` call).  If the limit read
back differs from `stored` (Python `!=`, where an integer never equals
`None`), the candidate is replaced by `memory.current`; the result is then
clamped and aligned.  A `none` result models the `TypeError` Python would
raise on clamping `None` (unreachable: a `none` candidate always takes the
reset branch). -/
def import_limit (conf : Conf) (env : Env) (stored : Option ℤ)
    (cand : Option ℤ) : Option ℤ :=
  let cand := if some (read_limit env) ≠ stored then some (read_current env)
              else cand
  cand.map (sanitize conf)

/-- Python `int()` applied to an exact rational: truncation toward zero. -/
def pyInt (q : ℚ) : ℤ :=
  if 0 ≤ q then ⌊q⌋ else ⌈q⌉

/-- `Cgroup.scale_limit`: `x = read_limit(); x = int(x + x * factor);
set_limit(x)`.  The returned value is the limit stored (and written) by the
inner `set_limit`/`import_limit`. -/
def scale_limit (conf : Conf) (env : Env) (stored : Option ℤ)
    (factor : ℚ) : Option ℤ :=
  let x := read_limit env
  import_limit conf env stored (some (pyInt ((x : ℚ) + (x : ℚ) * factor)))

/-! ## The controller (`class Senpai`) -/

/-- The loosen ("backoff") factor computed on the `integral > pressure`
branch of `Senpai.tick`: `err = integral / pressure`;
`adj = (err / coeff_backoff) ** 2`;
`adj = min(adj * max_backoff, max_backoff)`. -/
def backoff_adj (conf : Conf) (integral : ℤ) : ℚ :=
  let err : ℚ := (integral : ℚ) / (conf.pressure : ℚ)
  let adj : ℚ := (err / (conf.coeff_backoff : ℚ)) ^ 2
  min (adj * conf.max_backoff) conf.max_backoff

/-- The tighten ("probe") factor computed at the tail of `Senpai.tick`:
`err = pressure / max(integral, 1)`; `adj = (err / coeff_probe) ** 2`;
`adj = min(adj * max_probe, max_probe)`. -/
def probe_adj (conf : Conf) (integral : ℤ) : ℚ :=
  let err : ℚ := (conf.pressure : ℚ) / ((max integral 1 : ℤ) : ℚ)
  let adj : ℚ := (err / (conf.coeff_probe : ℚ)) ^ 2
  min (adj * conf.max_probe) conf.max_probe

/-- The mutable fields of the running program: the cgroup handle's
`self.limit` plus the controller's `last_total`, `integral` and
`grace_ticks`. -/
structure State where
  limit : Option ℤ
  last_total : ℤ
  integral : ℤ
  grace_ticks : ℤ
deriving DecidableEq, Repr

/-- Which branch of `Senpai.tick` ran: `loosen adj` for the
`integral > pressure` branch (it calls `adjust(adj)`), `hold` for the
grace-tick decrement, `tighten adj` for the final branch (it calls
`adjust(-adj)`). -/
inductive Action where
  | loosen (adj : ℚ)
  | hold
  | tighten (adj : ℚ)
deriving DecidableEq, Repr

/-- `Senpai.adjust(factor)`: scale the cgroup limit by `factor`, then reset
`self.integral = 0` (the log line has no state effect). -/
def adjust (conf : Conf) (env : Env) (s : State) (factor : ℚ) : State :=
  { s with limit := scale_limit conf env s.limit factor, integral := 0 }

/-- `Senpai.tick`, together with the branch it took.  The pressure/limit
reads feeding the log line have no state effect and are dropped. -/
def tick (conf : Conf) (env : Env) (s : State) : State × Action :=
  let total := env.pressureTotal
  let delta := total - s.last_total
  let s := { s with last_total := total, integral := s.integral + delta }
  if s.integral > conf.pressure then
    let adj := backoff_adj conf s.integral
    ({ adjust conf env s adj with grace_ticks := conf.interval - 1 },
      .loosen adj)
  else if s.grace_ticks ≠ 0 then
    ({ s with grace_ticks := s.grace_ticks - 1 }, .hold)
  else
    let adj := probe_adj conf s.integral
    ({ adjust conf env s (-adj) with grace_ticks := conf.interval - 1 },
      .tighten adj)

/-- `Senpai.__init__` (including the inner `Cgroup.__init__`, whose
`set_limit(None)` always takes the reset branch of `import_limit` because
`self.limit` is still `None`): establish the first limit, seed `last_total`
from the first pressure read, and start with `integral = 0`,
`grace_ticks = interval`. -/
def init (conf : Conf) (env : Env) : State :=
  { limit := import_limit conf env none none,
    last_total := env.pressureTotal,
    integral := 0,
    grace_ticks := conf.interval }

/-- The sampling loop `Senpai.run`, unrolled over a finite list of
environment snapshots (one per tick); returns the final state and the
branch taken on each tick. -/
def run (conf : Conf) : State → List Env → State × List Action
  | s, [] => (s, [])
  | s, e :: es =>
    let r := tick conf e s
    let r2 := run conf r.1 es
    (r2.1, r.2 :: r2.2)

/-! ## Spec-side definitions

These two definitions follow the words of the specification's `setLimit`
contract, to be compared with the source-derived `import_limit`:
"if the externally observed current limit diverges from the Accessor's
last-set value ..., the candidate is discarded and replaced by current
usage ...; otherwise clamp `candidate` to `[minSize, maxSize]`; then clear
the low alignment bits (round down to the page-alignment boundary)". -/

/-- Spec-side clamp to `[minSize, maxSize]` followed by rounding down to the
4096-byte page boundary. -/
def clampAlignSpec (conf : Conf) (l : ℤ) : ℤ :=
  let c := max conf.min_size (min conf.max_size l)
  c - c % 4096

/-- Spec-side `setLimit`: divergence self-heal, then clamp/align. -/
def setLimitSpec (conf : Conf) (env : Env) (stored : Option ℤ)
    (cand : Option ℤ) : Option ℤ :=
  if some (read_limit env) ≠ stored then
    some (clampAlignSpec conf (read_current env))
  else
    cand.map (clampAlignSpec conf)

/-- A concrete configuration used in several witnesses: the parser's
default coefficients (`interval = 6`, `pressure = 10000`,
`max_probe = 0.01`, `max_backoff = 1.0`, `coeff_probe = 10`,
`coeff_backoff = 20`) over permissive page-aligned bounds. -/
def confS : Conf :=
  ⟨4096, 10 ^ 12, 6, 10000, 1 / 100, 1, 10, 20⟩

/-! ## Bridge lemmas: Python's `& ~4095` as arithmetic rounding

`limit & ~4095` on a two's-complement arbitrary-precision integer rounds
down to a multiple of 4096, i.e. equals `limit - limit % 4096` with the
nonnegative (Euclidean) remainder.  We prove this for `Int.land` via bitwise
extensionality on the two constructor cases. -/

/-- Clearing the low 12 bits of a natural number keeps exactly the high
binary digits: `Nat.ldiff m 4095 = 2 ^ 12 * (m / 4096)`. -/
theorem Nat.ldiff_4095 (m : ℕ) : Nat.ldiff m 4095 = 2 ^ 12 * (m / 4096) := by
  have hm : m = 2 ^ 12 * (m / 4096) + m % 4096 := by omega
  have hr : m % 4096 < 2 ^ 12 := by omega
  apply Nat.eq_of_testBit_eq
  intro k
  rw [Nat.testBit_ldiff]
  conv_lhs => rw [hm]
  rw [Nat.testBit_mul_pow_two_add _ hr]
  have h0 : 2 ^ 12 * (m / 4096) = 2 ^ 12 * (m / 4096) + 0 := by omega
  rw [h0, Nat.testBit_mul_pow_two_add _ (by norm_num : (0 : ℕ) < 2 ^ 12)]
  have h4095 : (4095 : ℕ) = 2 ^ 12 - 1 := by norm_num
  rw [h4095, Nat.testBit_two_pow_sub_one]
  by_cases hk : k < 12 <;> simp [hk]

/-- Setting the low 12 bits of a natural number:
`m ||| 4095 = 2 ^ 12 * (m / 4096) + 4095`. -/
theorem Nat.lor_4095 (m : ℕ) : m ||| 4095 = 2 ^ 12 * (m / 4096) + 4095 := by
  have hm : m = 2 ^ 12 * (m / 4096) + m % 4096 := by omega
  have hr : m % 4096 < 2 ^ 12 := by omega
  apply Nat.eq_of_testBit_eq
  intro k
  rw [Nat.testBit_lor]
  conv_lhs => rw [hm]
  rw [Nat.testBit_mul_pow_two_add _ hr]
  rw [Nat.testBit_mul_pow_two_add _ (by norm_num : (4095 : ℕ) < 2 ^ 12)]
  have h4095 : (4095 : ℕ) = 2 ^ 12 - 1 := by norm_num
  rw [h4095, Nat.testBit_two_pow_sub_one]
  by_cases hk : k < 12 <;> simp [hk]

/-- Python's `x & ~4095` rounds an arbitrary-precision integer down to a
multiple of 4096: `Int.land x (Int.lnot 4095) = x - x % 4096`. -/
theorem Int.land_lnot_4095 (x : ℤ) :
    Int.land x (Int.lnot 4095) = x - x % 4096 := by
  have hl : Int.lnot 4095 = Int.negSucc 4095 := rfl
  rw [hl]
  cases x with
  | ofNat m =>
    show ((Nat.ldiff m 4095 : ℕ) : ℤ) = _
    rw [Nat.ldiff_4095]
    have := Nat.div_add_mod m 4096
    simp only [Int.ofNat_eq_natCast]
    push_cast
    omega
  | negSucc m =>
    show (Int.negSucc (m ||| 4095)) = _
    rw [Nat.lor_4095, Int.negSucc_eq, Int.negSucc_eq]
    push_cast
    omega

/-- `sanitize` in purely arithmetic form. -/
theorem sanitize_eq (conf : Conf) (l : ℤ) :
    sanitize conf l =
      max conf.min_size (min conf.max_size l) -
        max conf.min_size (min conf.max_size l) % 4096 := by
  unfold sanitize
  rw [Int.land_lnot_4095]

/-- Shared helper: the loosen branch of `tick`, taken exactly when the
updated integral exceeds the pressure target. -/
theorem tick_loosen (conf : Conf) (env : Env) (s : State)
    (h1 : conf.pressure < s.integral + (env.pressureTotal - s.last_total)) :
    tick conf env s =
      ({ limit := scale_limit conf env s.limit
            (backoff_adj conf (s.integral + (env.pressureTotal - s.last_total))),
          last_total := env.pressureTotal, integral := 0,
          grace_ticks := conf.interval - 1 },
        .loosen (backoff_adj conf
          (s.integral + (env.pressureTotal - s.last_total)))) := by
  simp only [tick]
  split_ifs with ha
  · rfl
  · exact absurd h1 ha

/-- Shared helper: the hold branch of `tick`, taken when the updated
integral stays within the target and grace ticks remain. -/
theorem tick_hold (conf : Conf) (env : Env) (s : State)
    (h1 : ¬ conf.pressure < s.integral + (env.pressureTotal - s.last_total))
    (h2 : s.grace_ticks ≠ 0) :
    tick conf env s =
      ({ s with
          last_total := env.pressureTotal
          integral := s.integral + (env.pressureTotal - s.last_total)
          grace_ticks := s.grace_ticks - 1 }, .hold) := by
  simp only [tick]
  split_ifs with ha
  · exact absurd ha h1
  · rfl

/-- Shared helper: the tighten branch of `tick`, taken when the updated
integral stays within the target and no grace ticks remain. -/
theorem tick_tighten (conf : Conf) (env : Env) (s : State)
    (h1 : ¬ conf.pressure < s.integral + (env.pressureTotal - s.last_total))
    (h2 : s.grace_ticks = 0) :
    tick conf env s =
      ({ limit := scale_limit conf env s.limit
            (-(probe_adj conf (s.integral + (env.pressureTotal - s.last_total)))),
          last_total := env.pressureTotal, integral := 0,
          grace_ticks := conf.interval - 1 },
        .tighten (probe_adj conf
          (s.integral + (env.pressureTotal - s.last_total)))) := by
  simp only [tick]
  split_ifs with ha hb
  · exact absurd ha h1
  · exact absurd hb (by simpa using h2)
  · rfl

/-- Shared helper: `run` on an empty list. -/
theorem run_nil (conf : Conf) (s : State) : run conf s [] = (s, []) :=
  rfl

/-- Shared helper: `run` on a cons. -/
theorem run_cons (conf : Conf) (s : State) (e : Env) (es : List Env) :
    run conf s (e :: es) =
      ((run conf (tick conf e s).1 es).1,
        (tick conf e s).2 :: (run conf (tick conf e s).1 es).2) :=
  rfl

/-- Shared helper: while at least as many grace ticks remain as there are
environments left, a run in which no tick loosens only holds. -/
theorem run_holds_in_grace (conf : Conf) :
    ∀ (envs : List Env) (s : State),
      (envs.length : ℤ) ≤ s.grace_ticks →
      (∀ a ∈ (run conf s envs).2, ∀ q, a ≠ Action.loosen q) →
      ∀ a ∈ (run conf s envs).2, a = Action.hold := by
  intro envs
  induction envs with
  | nil =>
    intro s _ _ a ha
    simp [run_nil] at ha
  | cons e es ih =>
    intro s hlen hnl a ha
    have hg : s.grace_ticks ≠ 0 := by
      rw [List.length_cons] at hlen
      push_cast at hlen
      omega
    by_cases hp : conf.pressure < s.integral + (e.pressureTotal - s.last_total)
    · exfalso
      have hmem : (tick conf e s).2 ∈ (run conf s (e :: es)).2 := by
        rw [run_cons]
        exact List.mem_cons_self _ _
      have hq := hnl _ hmem
        (backoff_adj conf (s.integral + (e.pressureTotal - s.last_total)))
      rw [tick_loosen conf e s hp] at hq
      simp at hq
    · have hh := tick_hold conf e s hp hg
      rw [run_cons] at ha
      rcases List.mem_cons.mp ha with h | h
      · rw [h, hh]
      · refine ih (tick conf e s).1 ?_ ?_ a h
        · rw [hh]
          show (es.length : ℤ) ≤ s.grace_ticks - 1
          rw [List.length_cons] at hlen
          push_cast at hlen
          omega
        · intro b hb q
          have hbm : b ∈ (run conf s (e :: es)).2 := by
            rw [run_cons]
            exact List.mem_cons_of_mem _ hb
          exact hnl b hbm q

/-- Shared helper: one tick keeps the grace counter within `[0, interval]`
when `1 ≤ interval`. -/
theorem grace_step (conf : Conf) (env : Env) (s : State)
    (hint : 1 ≤ conf.interval) (h0 : 0 ≤ s.grace_ticks)
    (h1 : s.grace_ticks ≤ conf.interval) :
    0 ≤ (tick conf env s).1.grace_ticks ∧
      (tick conf env s).1.grace_ticks ≤ conf.interval := by
  by_cases hp : conf.pressure < s.integral + (env.pressureTotal - s.last_total)
  · rw [tick_loosen conf env s hp]
    exact ⟨by show (0 : ℤ) ≤ conf.interval - 1; omega,
      by show conf.interval - 1 ≤ conf.interval; omega⟩
  · by_cases hg : s.grace_ticks = 0
    · rw [tick_tighten conf env s hp hg]
      exact ⟨by show (0 : ℤ) ≤ conf.interval - 1; omega,
        by show conf.interval - 1 ≤ conf.interval; omega⟩
    · rw [tick_hold conf env s hp hg]
      exact ⟨by show (0 : ℤ) ≤ s.grace_ticks - 1; omega,
        by show s.grace_ticks - 1 ≤ conf.interval; omega⟩

/-- Shared helper: a hold tick happens only from a strictly positive grace
counter (given a nonnegative one) and decrements it. -/
theorem hold_step (conf : Conf) (env : Env) (s : State)
    (h0 : 0 ≤ s.grace_ticks) (hh : (tick conf env s).2 = Action.hold) :
    0 < s.grace_ticks ∧
      (tick conf env s).1.grace_ticks = s.grace_ticks - 1 := by
  by_cases hp : conf.pressure < s.integral + (env.pressureTotal - s.last_total)
  · rw [tick_loosen conf env s hp] at hh
    simp at hh
  · by_cases hg : s.grace_ticks = 0
    · rw [tick_tighten conf env s hp hg] at hh
      simp at hh
    · refine ⟨by omega, ?_⟩
      rw [tick_hold conf env s hp hg]

/-- Shared helper: any adjusting (non-hold) tick resets the grace counter
to `interval - 1`. -/
theorem nonhold_step (conf : Conf) (env : Env) (s : State)
    (h : (tick conf env s).2 ≠ Action.hold) :
    (tick conf env s).1.grace_ticks = conf.interval - 1 := by
  by_cases hp : conf.pressure < s.integral + (env.pressureTotal - s.last_total)
  · rw [tick_loosen conf env s hp]
  · by_cases hg : s.grace_ticks = 0
    · rw [tick_tighten conf env s hp hg]
    · exact absurd (by rw [tick_hold conf env s hp hg]) h

/-- Shared helper: along any run, the grace counter stays in
`[0, interval]` when `1 ≤ interval`. -/
theorem run_grace_bounds (conf : Conf) (hint : 1 ≤ conf.interval) :
    ∀ (envs : List Env) (s : State),
      0 ≤ s.grace_ticks → s.grace_ticks ≤ conf.interval →
      0 ≤ (run conf s envs).1.grace_ticks ∧
        (run conf s envs).1.grace_ticks ≤ conf.interval := by
  intro envs
  induction envs with
  | nil =>
    intro s h0 h1
    rw [run_nil]
    exact ⟨h0, h1⟩
  | cons e es ih =>
    intro s h0 h1
    rw [run_cons]
    obtain ⟨g0, g1⟩ := grace_step conf e s hint h0 h1
    exact ih (tick conf e s).1 g0 g1

/-- Shared helper: `sanitize` coincides with the spec-side clamp/align. -/
theorem sanitize_eq_clampAlignSpec (conf : Conf) (l : ℤ) :
    sanitize conf l = clampAlignSpec conf l := by
  rw [sanitize_eq]
  rfl

/-- Shared helper: a successful `import_limit` stores a sanitized value. -/
theorem import_limit_some (conf : Conf) (env : Env) (stored cand : Option ℤ)
    (l : ℤ) (h : import_limit conf env stored cand = some l) :
    ∃ x, l = sanitize conf x := by
  unfold import_limit at h
  split at h
  · exact ⟨read_current env, by simpa using h.symm⟩
  · cases cand with
    | none => simp at h
    | some x => exact ⟨x, by simpa using h.symm⟩

/-- Shared helper: the bounds and alignment of a sanitized value, under a
page-aligned `min_size` and ordered bounds. -/
theorem sanitize_bounds (conf : Conf) (x : ℤ)
    (hmin : (4096 : ℤ) ∣ conf.min_size)
    (hle : conf.min_size ≤ conf.max_size) :
    conf.min_size ≤ sanitize conf x ∧ sanitize conf x ≤ conf.max_size ∧
      sanitize conf x % 4096 = 0 := by
  rw [sanitize_eq]
  omega

end Senpai

namespace Senpai

/-! ## Claims -/

/-- C1 (amended): for every configuration whose `min_size` is page-aligned
and satisfies `min_size ≤ max_size`, every environment and every candidate,
a limit stored by `import_limit` (hence by `set_limit`) lies in
`[min_size, max_size]` and is page-aligned (`l % 4096 = 0`, i.e. its low 12
bits are zero). -/
theorem c1_import_limit_bounds_aligned (conf : Conf) (env : Env)
    (stored cand : Option ℤ) (l : ℤ)
    (hmin : (4096 : ℤ) ∣ conf.min_size)
    (hle : conf.min_size ≤ conf.max_size)
    (h : import_limit conf env stored cand = some l) :
    conf.min_size ≤ l ∧ l ≤ conf.max_size ∧ l % 4096 = 0 := by
  obtain ⟨x, rfl⟩ := import_limit_some conf env stored cand l h
  exact sanitize_bounds conf x hmin hle

/-- C1 witness: the bounds theorem applied at the configuration
`min_size = 4096, max_size = 10000` with candidate `5000`, whose stored
limit is `4096`. -/
theorem c1_import_limit_bounds_aligned_witness :
    (4096 : ℤ) ≤ 4096 ∧ (4096 : ℤ) ≤ 10000 ∧ (4096 : ℤ) % 4096 = 0 := by
  have h := c1_import_limit_bounds_aligned
    ⟨4096, 10000, 6, 10000, 1/100, 1, 10, 20⟩ ⟨some 0, 0, 0⟩
    (some 0) (some 5000) 4096 (by decide) (by decide)
    (by simp [import_limit, read_limit, sanitize_eq_clampAlignSpec,
              clampAlignSpec])
  exact h

/-- C1 counterexample: with the unaligned `min_size = 4097` (and candidate
`4097`, no divergence), `import_limit` stores `4096 < min_size`, so the
claim as stated — bounds for *every* configuration — is false. -/
theorem c1_counterexample :
    import_limit ⟨4097, 10000, 6, 10000, 1/100, 1, 10, 20⟩ ⟨some 0, 0, 0⟩
        (some 0) (some 4097) = some 4096 ∧ ¬ ((4097 : ℤ) ≤ 4096) := by
  refine ⟨?_, by decide⟩
  simp [import_limit, read_limit, sanitize_eq_clampAlignSpec, clampAlignSpec]

/-- C2: `import_limit` (the sanitizing core of `set_limit`) coincides with
the specification's `setLimit` contract: when the limit read back differs
from the last value stored by this controller (including the first call,
when `stored` is still `none`), the candidate is discarded in favour of
current usage, which is clamped and aligned; otherwise the supplied
candidate is clamped and aligned. -/
theorem c2_import_limit_eq_setLimitSpec (conf : Conf) (env : Env)
    (stored cand : Option ℤ) :
    import_limit conf env stored cand = setLimitSpec conf env stored cand := by
  unfold import_limit setLimitSpec
  split
  · simp [sanitize_eq_clampAlignSpec]
  · cases cand <;> simp [sanitize_eq_clampAlignSpec]

/-- C3: `Senpai.adjust` always resets the integral to `0`, for every factor
(positive, negative or zero) and regardless of what the accessor's clamping
or self-heal did to the limit. -/
theorem c3_adjust_resets_integral (conf : Conf) (env : Env) (s : State)
    (factor : ℚ) : (adjust conf env s factor).integral = 0 :=
  rfl

/-- C5: for a fixed configuration with positive pressure target and
nonnegative backoff cap, on the domain where the loosen branch computes it
(`pressure < integral`) the backoff factor is monotonically non-decreasing
in the integral; it never exceeds `max_backoff`; and at
`integral = 50000, pressure = 10000, coeff_backoff = 20, max_backoff = 1`
it is exactly `0.0625`. -/
theorem c5_backoff_adj_monotone_capped (conf : Conf) (i₁ i₂ : ℤ)
    (hp : 0 < conf.pressure) (hmb : 0 ≤ conf.max_backoff)
    (h1 : conf.pressure < i₁) (h12 : i₁ ≤ i₂) :
    backoff_adj conf i₁ ≤ backoff_adj conf i₂ ∧
      (∀ i : ℤ, backoff_adj conf i ≤ conf.max_backoff) ∧
      backoff_adj ⟨4096, 10 ^ 12, 6, 10000, 1 / 100, 1, 10, 20⟩ 50000
        = 0.0625 := by
  refine ⟨?_, fun i => min_le_right _ _, by norm_num [backoff_adj]⟩
  unfold backoff_adj
  simp only [div_div, div_pow]
  have hi₁ : (0 : ℚ) < (i₁ : ℚ) := by exact_mod_cast hp.trans h1
  have hi₁₂ : (i₁ : ℚ) ≤ (i₂ : ℚ) := by exact_mod_cast h12
  refine min_le_min (mul_le_mul_of_nonneg_right ?_ hmb) le_rfl
  rcases eq_or_ne ((conf.pressure : ℚ) * (conf.coeff_backoff : ℚ)) 0 with h0 | h0
  · rw [h0]
    norm_num
  · have hpos : 0 < ((conf.pressure : ℚ) * (conf.coeff_backoff : ℚ)) ^ 2 :=
      by positivity
    gcongr

/-- C6: for a fixed configuration with nonnegative probe cap, the probe
factor is antitone in the integral (it does not decrease as the integral
decreases toward 0); it never exceeds `max_probe`; and the floored
denominator `max integral 1` is at least 1, hence never zero as a rational
divisor. -/
theorem c6_probe_adj_antitone_capped (conf : Conf) (i₁ i₂ : ℤ)
    (hmp : 0 ≤ conf.max_probe) (h12 : i₁ ≤ i₂) :
    probe_adj conf i₂ ≤ probe_adj conf i₁ ∧
      (∀ i : ℤ, probe_adj conf i ≤ conf.max_probe) ∧
      (∀ i : ℤ, 1 ≤ max i 1 ∧ ((max i 1 : ℤ) : ℚ) ≠ 0) := by
  refine ⟨?_, fun i => min_le_right _ _, fun i => ⟨le_max_right i 1, ?_⟩⟩
  · unfold probe_adj
    simp only [div_div, div_pow]
    have hm1 : (1 : ℚ) ≤ ((max i₁ 1 : ℤ) : ℚ) := by
      have : (1 : ℤ) ≤ max i₁ 1 := le_max_right i₁ 1
      exact_mod_cast this
    have hm12 : ((max i₁ 1 : ℤ) : ℚ) ≤ ((max i₂ 1 : ℤ) : ℚ) := by
      have : max i₁ 1 ≤ max i₂ 1 := max_le_max h12 le_rfl
      exact_mod_cast this
    refine min_le_min (mul_le_mul_of_nonneg_right ?_ hmp) le_rfl
    rcases eq_or_ne ((conf.coeff_probe : ℚ)) 0 with h0 | h0
    · rw [h0]
      norm_num
    · have hne : ((max i₁ 1 : ℤ) : ℚ) * (conf.coeff_probe : ℚ) ≠ 0 :=
        mul_ne_zero (by linarith) h0
      have hpos : 0 < (((max i₁ 1 : ℤ) : ℚ) * (conf.coeff_probe : ℚ)) ^ 2 :=
        pow_two_pos_of_ne_zero hne
      refine div_le_div_of_nonneg_left (sq_nonneg _) hpos ?_
      rw [mul_pow, mul_pow]
      exact mul_le_mul_of_nonneg_right
        (pow_le_pow_left₀ (by linarith) hm12 2) (sq_nonneg _)
  · have : (1 : ℤ) ≤ max i 1 := le_max_right i 1
    have : (1 : ℚ) ≤ ((max i 1 : ℤ) : ℚ) := by exact_mod_cast this
    intro hc
    rw [hc] at this
    norm_num at this

/-- C5 witness: the backoff theorem at the default coefficients with
integrals 50000 ≤ 60000. -/
theorem c5_backoff_adj_monotone_capped_witness :
    backoff_adj ⟨4096, 10 ^ 12, 6, 10000, 1 / 100, 1, 10, 20⟩ 50000 ≤
        backoff_adj ⟨4096, 10 ^ 12, 6, 10000, 1 / 100, 1, 10, 20⟩ 60000 ∧
      (∀ i : ℤ, backoff_adj ⟨4096, 10 ^ 12, 6, 10000, 1 / 100, 1, 10, 20⟩ i ≤
        (⟨4096, 10 ^ 12, 6, 10000, 1 / 100, 1, 10, 20⟩ : Conf).max_backoff) ∧
      backoff_adj ⟨4096, 10 ^ 12, 6, 10000, 1 / 100, 1, 10, 20⟩ 50000
        = 0.0625 :=
  c5_backoff_adj_monotone_capped _ 50000 60000 (by norm_num) (by norm_num)
    (by norm_num) (by norm_num)

/-- C6 witness: the probe theorem at the default coefficients with
integrals 0 ≤ 500. -/
theorem c6_probe_adj_antitone_capped_witness :
    probe_adj ⟨4096, 10 ^ 12, 6, 10000, 1 / 100, 1, 10, 20⟩ 500 ≤
        probe_adj ⟨4096, 10 ^ 12, 6, 10000, 1 / 100, 1, 10, 20⟩ 0 ∧
      (∀ i : ℤ, probe_adj ⟨4096, 10 ^ 12, 6, 10000, 1 / 100, 1, 10, 20⟩ i ≤
        (⟨4096, 10 ^ 12, 6, 10000, 1 / 100, 1, 10, 20⟩ : Conf).max_probe) ∧
      (∀ i : ℤ, 1 ≤ max i 1 ∧ ((max i 1 : ℤ) : ℚ) ≠ 0) :=
  c6_probe_adj_antitone_capped _ 0 500 (by norm_num) (by norm_num)

/-- C4: any adjusting tick (loosen or tighten, i.e. not a hold) leaves the
grace counter at `interval - 1`, and from the resulting state any run of at
most `interval - 1` further ticks in which no loosen trigger fires
(no action is a loosen) takes no tighten action — every such tick holds. -/
theorem c4_adjust_resets_grace_window (conf : Conf) (env : Env) (s : State)
    (h : (tick conf env s).2 ≠ Action.hold) :
    (tick conf env s).1.grace_ticks = conf.interval - 1 ∧
      ∀ envs : List Env, (envs.length : ℤ) ≤ conf.interval - 1 →
        (∀ a ∈ (run conf (tick conf env s).1 envs).2,
          ∀ q, a ≠ Action.loosen q) →
        ∀ a ∈ (run conf (tick conf env s).1 envs).2, a = Action.hold := by
  have hgr : (tick conf env s).1.grace_ticks = conf.interval - 1 := by
    by_cases hp : conf.pressure < s.integral + (env.pressureTotal - s.last_total)
    · rw [tick_loosen conf env s hp]
    · by_cases hg : s.grace_ticks = 0
      · rw [tick_tighten conf env s hp hg]
      · exfalso
        exact h (by rw [tick_hold conf env s hp hg])
  refine ⟨hgr, fun envs hlen hnl => ?_⟩
  exact run_holds_in_grace conf envs (tick conf env s).1
    (by rw [hgr]; exact hlen) hnl

/-- C4 witness: a tighten tick from grace 0 under `confS`, followed by a
grace window in which holds are forced. -/
theorem c4_adjust_resets_grace_window_witness :
    (tick confS ⟨some 409600, 409600, 777⟩ ⟨some 409600, 777, 0, 0⟩).1.grace_ticks
        = confS.interval - 1 ∧
      ∀ envs : List Env, (envs.length : ℤ) ≤ confS.interval - 1 →
        (∀ a ∈ (run confS
            (tick confS ⟨some 409600, 409600, 777⟩
              ⟨some 409600, 777, 0, 0⟩).1 envs).2,
          ∀ q, a ≠ Action.loosen q) →
        ∀ a ∈ (run confS
            (tick confS ⟨some 409600, 409600, 777⟩
              ⟨some 409600, 777, 0, 0⟩).1 envs).2, a = Action.hold :=
  c4_adjust_resets_grace_window confS ⟨some 409600, 409600, 777⟩
    ⟨some 409600, 777, 0, 0⟩
    (by rw [tick_tighten _ _ _ (by norm_num [confS]) rfl]; simp)

/-- C9: for `interval ≥ 1` the grace counter starts at `interval` upon
construction, a tick from any state with the counter in `[0, interval]`
keeps it in `[0, interval]`, a hold tick only ever decrements it from a
strictly positive value, and along any run from the initial state the
counter stays in `[0, interval]`; any other tick (an adjustment) resets
the counter to `interval - 1`. -/
theorem c9_grace_ticks_invariant (conf : Conf) (hint : 1 ≤ conf.interval) :
    (∀ env : Env, (init conf env).grace_ticks = conf.interval) ∧
      (∀ (env : Env) (s : State), 0 ≤ s.grace_ticks →
        s.grace_ticks ≤ conf.interval →
        (0 ≤ (tick conf env s).1.grace_ticks ∧
          (tick conf env s).1.grace_ticks ≤ conf.interval) ∧
        ((tick conf env s).2 = Action.hold →
          0 < s.grace_ticks ∧
            (tick conf env s).1.grace_ticks = s.grace_ticks - 1) ∧
        ((tick conf env s).2 ≠ Action.hold →
          (tick conf env s).1.grace_ticks = conf.interval - 1)) ∧
      (∀ (env : Env) (envs : List Env),
        0 ≤ (run conf (init conf env) envs).1.grace_ticks ∧
          (run conf (init conf env) envs).1.grace_ticks ≤ conf.interval) := by
  refine ⟨fun env => rfl, fun env s h0 h1 => ?_, fun env envs => ?_⟩
  · exact ⟨grace_step conf env s hint h0 h1,
      fun hh => hold_step conf env s h0 hh,
      fun hh => nonhold_step conf env s hh⟩
  · exact run_grace_bounds conf hint envs (init conf env)
      (by show (0 : ℤ) ≤ conf.interval; omega) le_rfl

/-- C9 witness: the invariant theorem at `confS` (`interval = 6`). -/
theorem c9_grace_ticks_invariant_witness :
    (∀ env : Env, (init confS env).grace_ticks = confS.interval) ∧
      (∀ (env : Env) (s : State), 0 ≤ s.grace_ticks →
        s.grace_ticks ≤ confS.interval →
        (0 ≤ (tick confS env s).1.grace_ticks ∧
          (tick confS env s).1.grace_ticks ≤ confS.interval) ∧
        ((tick confS env s).2 = Action.hold →
          0 < s.grace_ticks ∧
            (tick confS env s).1.grace_ticks = s.grace_ticks - 1) ∧
        ((tick confS env s).2 ≠ Action.hold →
          (tick confS env s).1.grace_ticks = confS.interval - 1)) ∧
      (∀ (env : Env) (envs : List Env),
        0 ≤ (run confS (init confS env) envs).1.grace_ticks ∧
          (run confS (init confS env) envs).1.grace_ticks ≤ confS.interval) :=
  c9_grace_ticks_invariant confS (by norm_num [confS])

/-- C10 (amended): on a tick with no grace ticks left and the updated
integral within the pressure target, the controller always takes the
tighten action (it never merely holds) and resets the integral; the factor
passed to `adjust` is `-probe_adj`, which is non-positive whenever
`max_probe ≥ 0`; and its magnitude is strictly positive when additionally
`pressure > 0`, `max_probe > 0` and `coeff_probe ≠ 0`. -/
theorem c10_active_tick_tightens (conf : Conf) (env : Env) (s : State)
    (hg : s.grace_ticks = 0)
    (hi : ¬ conf.pressure < s.integral + (env.pressureTotal - s.last_total)) :
    (tick conf env s).2 =
        Action.tighten (probe_adj conf
          (s.integral + (env.pressureTotal - s.last_total))) ∧
      (tick conf env s).1.integral = 0 ∧
      (0 ≤ conf.max_probe →
        0 ≤ probe_adj conf (s.integral + (env.pressureTotal - s.last_total))) ∧
      (0 < conf.pressure → 0 < conf.max_probe → (conf.coeff_probe : ℚ) ≠ 0 →
        0 < probe_adj conf (s.integral + (env.pressureTotal - s.last_total))) := by
  refine ⟨?_, ?_, ?_, ?_⟩
  · rw [tick_tighten conf env s hi hg]
  · rw [tick_tighten conf env s hi hg]
  · intro hmp
    simp only [probe_adj]
    exact le_min (mul_nonneg (sq_nonneg _) hmp) hmp
  · intro hp hmp hcp
    have hm : (0 : ℚ) < ((max (s.integral + (env.pressureTotal - s.last_total)) 1 : ℤ) : ℚ) := by
      have h1 : (1 : ℤ) ≤ max (s.integral + (env.pressureTotal - s.last_total)) 1 :=
        le_max_right _ 1
      exact_mod_cast lt_of_lt_of_le one_pos h1
    have herr : (0 : ℚ) < (conf.pressure : ℚ) /
        ((max (s.integral + (env.pressureTotal - s.last_total)) 1 : ℤ) : ℚ) :=
      div_pos (by exact_mod_cast hp) hm
    simp only [probe_adj]
    exact lt_min
      (mul_pos (pow_two_pos_of_ne_zero (div_ne_zero (ne_of_gt herr) hcp)) hmp)
      hmp

/-- C10 counterexample: with `max_probe = 0` and `pressure = 1 > 0`, the
active-tick tighten factor is `0`, so its magnitude is not strictly
positive even though the pressure target is positive, contradicting the
claim as stated. -/
theorem c10_counterexample :
    (tick ⟨4096, 10 ^ 12, 6, 1, 0, 1, 10, 20⟩ ⟨some 409600, 409600, 777⟩
        ⟨some 409600, 777, 0, 0⟩).2 = Action.tighten 0 ∧
      (0 : ℤ) < 1 ∧ ¬ (0 : ℚ) < 0 := by
  refine ⟨?_, by norm_num, by norm_num⟩
  rw [tick_tighten _ _ _ (by norm_num) rfl]
  norm_num [probe_adj]

/-- C10 witness: the amended theorem at `confS` from grace 0 with zero
delta. -/
theorem c10_active_tick_tightens_witness :
    (tick confS ⟨some 409600, 409600, 777⟩ ⟨some 409600, 777, 0, 0⟩).2 =
        Action.tighten (probe_adj confS (0 + (777 - 777))) ∧
      (tick confS ⟨some 409600, 409600, 777⟩
          ⟨some 409600, 777, 0, 0⟩).1.integral = 0 ∧
      (0 ≤ confS.max_probe → 0 ≤ probe_adj confS (0 + (777 - 777))) ∧
      (0 < confS.pressure → 0 < confS.max_probe →
        (confS.coeff_probe : ℚ) ≠ 0 → 0 < probe_adj confS (0 + (777 - 777))) :=
  c10_active_tick_tightens confS ⟨some 409600, 409600, 777⟩
    ⟨some 409600, 777, 0, 0⟩ rfl (by norm_num [confS])

/-- C8 (amended): a `memory.high` of `"max"` reads back as `2 ^ 64 - 1`;
since a value this controller stored is never that sentinel (`none` before
the first store, page-aligned afterwards, and the sentinel is odd), any
`scale_limit` call performed right after such a read self-heals to the
clamp-aligned current usage — a finite value that, for page-aligned
`min_size ≤ max_size`, lies in `[min_size, max_size]` for every factor. -/
theorem c8_sentinel_scale_bounded (conf : Conf) (env : Env)
    (stored : Option ℤ) (factor : ℚ)
    (hmax : env.memHigh = none)
    (hstored : stored = none ∨ ∃ v, stored = some v ∧ v % 4096 = 0)
    (hmin : (4096 : ℤ) ∣ conf.min_size)
    (hle : conf.min_size ≤ conf.max_size) :
    read_limit env = 2 ^ 64 - 1 ∧
      scale_limit conf env stored factor =
        some (sanitize conf (read_current env)) ∧
      conf.min_size ≤ sanitize conf (read_current env) ∧
      sanitize conf (read_current env) ≤ conf.max_size := by
  have hrl : read_limit env = 2 ^ 64 - 1 := by
    simp [read_limit, hmax]
  have hne : some (read_limit env) ≠ stored := by
    rcases hstored with h | ⟨v, hv, hal⟩
    · rw [h]
      simp
    · rw [hv, hrl]
      simp only [ne_eq, Option.some.injEq]
      intro hc
      rw [← hc] at hal
      norm_num at hal
  obtain ⟨b1, b2, b3⟩ := sanitize_bounds conf (read_current env) hmin hle
  refine ⟨hrl, ?_, b1, b2⟩
  simp only [scale_limit, import_limit]
  rw [if_pos hne]
  simp

/-- C8 witness: the sentinel theorem under `confS`, stored limit `409600`,
usage `409600`, shrink factor `-1/100`. -/
theorem c8_sentinel_scale_bounded_witness :
    read_limit ⟨none, 409600, 777⟩ = 2 ^ 64 - 1 ∧
      scale_limit confS ⟨none, 409600, 777⟩ (some 409600) (-(1 / 100)) =
        some (sanitize confS (read_current ⟨none, 409600, 777⟩)) ∧
      confS.min_size ≤ sanitize confS (read_current ⟨none, 409600, 777⟩) ∧
      sanitize confS (read_current ⟨none, 409600, 777⟩) ≤ confS.max_size :=
  c8_sentinel_scale_bounded confS ⟨none, 409600, 777⟩ (some 409600)
    (-(1 / 100)) rfl (Or.inr ⟨409600, rfl, by norm_num⟩)
    (by norm_num [confS]) (by norm_num [confS])

/-- C8 counterexample: with the unaligned `min_size = 4097`, scaling right
after reading the sentinel stores `4096 < min_size`, so the claim's bound
`minSize ≤ limit` fails as stated for arbitrary configurations. -/
theorem c8_counterexample :
    scale_limit ⟨4097, 10000, 6, 10000, 1 / 100, 1, 10, 20⟩ ⟨none, 0, 0⟩
        (some 0) (-(1 / 2)) = some 4096 ∧ ¬ ((4097 : ℤ) ≤ 4096) := by
  refine ⟨?_, by norm_num⟩
  simp [scale_limit, import_limit, read_limit, read_current,
    sanitize_eq_clampAlignSpec, clampAlignSpec]

/-- C7: under `confS` (`interval = 6`, `pressure = 10000`,
`max_probe = 1/100`, `coeff_probe = 10`), starting from construction with
usage `409600` and constant pressure total (all deltas 0, integral stays 0),
the first six ticks hold while grace counts 6→0, and the seventh tick
tightens: the raw quadratic term `(10000 / 10) ^ 2 = 1000000` is clamped to
`max_probe = 1/100`, and the limit shrinks from the `409600` read at that
moment by exactly 1% to `405504`. -/
theorem c7_tighten_scenario :
    run confS (init confS ⟨none, 409600, 777⟩)
        (List.replicate 7 ⟨some 409600, 409600, 777⟩) =
      (⟨some 405504, 777, 0, 5⟩,
        [Action.hold, Action.hold, Action.hold, Action.hold, Action.hold,
          Action.hold, Action.tighten (1 / 100)]) ∧
      ((confS.pressure : ℚ) / ((max (0 : ℤ) 1 : ℤ) : ℚ) /
          (confS.coeff_probe : ℚ)) ^ 2 = 1000000 ∧
      probe_adj confS 0 = 1 / 100 ∧
      (405504 : ℤ) = 409600 - 409600 / 100 := by
  have h0 : init confS ⟨none, 409600, 777⟩ =
      (⟨some 409600, 777, 0, 6⟩ : State) := by
    simp [init, import_limit, read_limit, read_current,
      sanitize_eq_clampAlignSpec, clampAlignSpec, confS]
  have hstep : ∀ g g' : ℤ, g ≠ 0 → g' = g - 1 →
      tick confS ⟨some 409600, 409600, 777⟩ ⟨some 409600, 777, 0, g⟩ =
        ((⟨some 409600, 777, 0, g'⟩ : State), Action.hold) := by
    intro g g' hgz hg
    subst hg
    rw [tick_hold _ _ _ (by norm_num [confS]) hgz]
    norm_num
  have hadj : probe_adj confS (0 + (777 - 777)) = 1 / 100 := by
    norm_num [probe_adj, confS, max_def, min_def]
  have hscale : scale_limit confS ⟨some 409600, 409600, 777⟩ (some 409600)
      (-(1 / 100)) = some 405504 := by
    simp only [scale_limit, import_limit, read_limit, read_current, pyInt]
    norm_num [clampAlignSpec, confS, sanitize_eq_clampAlignSpec]
  have htight : tick confS ⟨some 409600, 409600, 777⟩
      ⟨some 409600, 777, 0, 0⟩ =
        ((⟨some 405504, 777, 0, 5⟩ : State), Action.tighten (1 / 100)) := by
    rw [tick_tighten _ _ _ (by norm_num [confS]) rfl, hadj]
    rw [show (Prod.mk (α := State) (β := Action)
        ⟨scale_limit confS ⟨some 409600, 409600, 777⟩ (some 409600) (-(1 / 100)),
          777, 0, confS.interval - 1⟩ (Action.tighten (1 / 100))) =
        (⟨some 405504, 777, 0, 5⟩, Action.tighten (1 / 100)) from by
      rw [hscale]
      norm_num [confS]]
  refine ⟨?_, by norm_num [confS, max_def],
    by norm_num [probe_adj, confS, max_def, min_def], by norm_num⟩
  rw [show List.replicate 7 (⟨some 409600, 409600, 777⟩ : Env) =
    [⟨some 409600, 409600, 777⟩, ⟨some 409600, 409600, 777⟩,
      ⟨some 409600, 409600, 777⟩, ⟨some 409600, 409600, 777⟩,
      ⟨some 409600, 409600, 777⟩, ⟨some 409600, 409600, 777⟩,
      ⟨some 409600, 409600, 777⟩] from rfl]
  rw [h0]
  simp only [run_cons, run_nil,
    hstep 6 5 (by norm_num) (by norm_num), hstep 5 4 (by norm_num) (by norm_num),
    hstep 4 3 (by norm_num) (by norm_num), hstep 3 2 (by norm_num) (by norm_num),
    hstep 2 1 (by norm_num) (by norm_num), hstep 1 0 (by norm_num) (by norm_num),
    htight]

end Senpai
